import Mathlib

/-!
Verification of the interactive remote-shell relay of the `rsts` repository.

The development shallowly embeds two components:

* the Pty Bridge I/O loop of `src/app1/src/modules/ssh/ssh2_pty_client.rs`
  (`Ssh2PtyClient::start_pty_io` and `Ssh2PtyClient::close`), and
* the Session Actor of `src/app1/src/modules/web/ssh_websocket_pty.rs`
  (`WsSshPtySession` and its handlers).

Interactions with the operating system and with the ssh2 library (channel
reads/writes, the mpsc queues, serde JSON parsing, UTF-8 decoding) are
modelled as oracles: scripted lists of primitive results, or function
parameters.  All state transitions, branch structure, buffer arithmetic and
emitted frames are translated directly from the Rust source.
-/

namespace Rsts

/-- Commands carried by the bridge command queue (`enum PtyCommand` in
`ssh2_pty_client.rs`). -/
inductive PtyCommand
  | write (data : List Nat)
  | resize (width height : Nat)
  | close
  deriving DecidableEq, Repr

/-- Result of one `command_rx.try_recv()` call. -/
inductive TryRecvResult
  | ok (c : PtyCommand)
  | empty
  | disconnected
  deriving DecidableEq, Repr

/-- Result of one `channel.write(&data[offset..])` call: `Ok(n)` (the channel
consumed the first `n` bytes of the given slice), a `WouldBlock` error, or any
other I/O error. -/
inductive WriteResult
  | ok (n : Nat)
  | wouldBlock
  | ioErr
  deriving DecidableEq, Repr

/-- Result of one `channel.read(&mut buf)` call: `Ok` with the bytes read
(`[]` models `Ok(0)`, i.e. EOF), a `WouldBlock` error, or any other error. -/
inductive ReadResult
  | ok (data : List Nat)
  | wouldBlock
  | ioErr
  deriving DecidableEq, Repr

/-- Result of one `tx.send(data)` on the output queue: ok, or the receiving
end is gone. -/
inductive SendResult
  | ok
  | closedErr
  deriving DecidableEq, Repr

/-- The environment scripts the results of every primitive call the I/O loop
makes.  Each call pops the next scripted result; an exhausted script defaults
to "no progress" (`empty` / `wouldBlock` / `ok`), so a finite script models an
arbitrary finite schedule. -/
structure Env where
  recvs : List TryRecvResult
  writes : List WriteResult
  reads : List ReadResult
  sends : List SendResult
  deriving DecidableEq, Repr

def popRecv (env : Env) : TryRecvResult × Env :=
  match env.recvs with
  | [] => (.empty, env)
  | r :: rest => (r, { env with recvs := rest })

def popWrite (env : Env) : WriteResult × Env :=
  match env.writes with
  | [] => (.wouldBlock, env)
  | w :: rest => (w, { env with writes := rest })

def popRead (env : Env) : ReadResult × Env :=
  match env.reads with
  | [] => (.wouldBlock, env)
  | r :: rest => (r, { env with reads := rest })

def popSend (env : Env) : SendResult × Env :=
  match env.sends with
  | [] => (.ok, env)
  | s :: rest => (s, { env with sends := rest })

/-- Observable events of one run of the I/O loop.  `wroteBytes bs` records the
bytes actually consumed by a `channel.write` call; `consumedCommand c` records
a command popped from the command queue; `droppedChannel` records the channel
value being dropped (its destructor releasing the channel) when the worker
closure returns; `exited` records the worker exiting. -/
inductive Event
  | consumedCommand (c : PtyCommand)
  | wroteBytes (bs : List Nat)
  | flushedChannel
  | resized (width height : Nat)
  | closedChannel
  | slept (ms : Nat)
  | readAttempt
  | sentOutput (bs : List Nat)
  | sendFailed
  | writeError
  | readError
  | eofSeen
  | droppedChannel
  | exited
  deriving DecidableEq, Repr

/-- Private loop state: `pending_write : Option<(Vec<u8>, usize)>`. -/
structure LoopState where
  pending : Option (List Nat × Nat)
  deriving DecidableEq, Repr

/-- Outcome of one iteration of the outer `loop`: continue with a new state,
or leave the loop (`break` or `return`). -/
inductive IterOut
  | next (st : LoopState)
  | stop
  deriving DecidableEq, Repr

/-- Outcome of the inner command-drain loop (lines 101–122 of
`ssh2_pty_client.rs`). -/
inductive DrainOutcome
  | staged (data : List Nat)
  | idle
  | terminate
  deriving DecidableEq, Repr

/-- The inner drain loop: pop commands until a `Write` is staged, the queue is
empty, or a `Close`/disconnection terminates the worker.  `Resize` is applied
immediately and draining continues. -/
def drainLoop : List TryRecvResult → List TryRecvResult × List Event × DrainOutcome
  | [] => ([], [], .idle)
  | r :: rest =>
    match r with
    | .ok (.write data) => (rest, [.consumedCommand (.write data)], .staged data)
    | .ok (.resize w h) =>
      let out := drainLoop rest
      (out.1, .consumedCommand (.resize w h) :: .resized w h :: out.2.1, out.2.2)
    | .ok .close => (rest, [.consumedCommand .close, .closedChannel], .terminate)
    | .empty => (rest, [], .idle)
    | .disconnected => (rest, [.closedChannel], .terminate)

/-- Step 3 of the loop: one `channel.read` attempt (lines 150–172). -/
def readPhase (env : Env) : Env × List Event × IterOut :=
  match popRead env with
  | (.ok data, env1) =>
    if data.isEmpty then
      (env1, [.readAttempt, .eofSeen], .stop)
    else
      match popSend env1 with
      | (.ok, env2) => (env2, [.readAttempt, .sentOutput data], .next ⟨none⟩)
      | (.closedErr, env2) => (env2, [.readAttempt, .sendFailed], .stop)
  | (.wouldBlock, env1) => (env1, [.readAttempt, .slept 10], .next ⟨none⟩)
  | (.ioErr, env1) => (env1, [.readAttempt, .readError], .stop)

/-- Step 2 of the loop: one write attempt on the unsent suffix of the pending
buffer (lines 125–148), falling through to the read phase exactly when the
Rust code does.  On `Ok(n)` with the buffer not yet exhausted the loop sleeps
1ms and `continue`s; on `WouldBlock` it sleeps 10ms and `continue`s; on any
other error it breaks; on full consumption it flushes and falls through to
the read. -/
def writePhase (env : Env) (data : List Nat) (offset : Nat) : Env × List Event × IterOut :=
  if offset < data.length then
    match popWrite env with
    | (.ok n, env1) =>
      let consumed := (data.drop offset).take n
      if offset + n < data.length then
        (env1, [.wroteBytes consumed, .slept 1], .next ⟨some (data, offset + n)⟩)
      else
        let out := readPhase env1
        (out.1, .wroteBytes consumed :: .flushedChannel :: out.2.1, out.2.2)
    | (.wouldBlock, env1) => (env1, [.slept 10], .next ⟨some (data, offset)⟩)
    | (.ioErr, env1) => (env1, [.writeError], .stop)
  else
    readPhase env

/-- One iteration of the outer `loop` body (lines 99–173): drain the command
queue only when no write is pending, then write, then read. -/
def loopIter (env : Env) (st : LoopState) : Env × List Event × IterOut :=
  match st.pending with
  | some (data, offset) => writePhase env data offset
  | none =>
    let d := drainLoop env.recvs
    let env1 : Env := { env with recvs := d.1 }
    match d.2.2 with
    | .terminate => (env1, d.2.1, .stop)
    | .staged data =>
      let out := writePhase env1 data 0
      (out.1, d.2.1 ++ out.2.1, out.2.2)
    | .idle =>
      let out := readPhase env1
      (out.1, d.2.1 ++ out.2.1, out.2.2)

/-- Result of a fuel-bounded run of the loop: the worker terminated, or fuel
ran out with the loop still live in the given state. -/
inductive RunResult
  | terminated
  | fuelOut (st : LoopState)
  deriving DecidableEq, Repr

/-- Fuel-bounded execution of the I/O loop.  On every path that leaves the
loop the worker closure returns, so the channel value (moved into the closure)
is dropped — its destructor releases the channel — before the worker exits. -/
def runLoop : Nat → Env → LoopState → List Event × RunResult
  | 0, _, st => ([], .fuelOut st)
  | fuel + 1, env, st =>
    match loopIter env st with
    | (_, evs, .stop) => (evs ++ [.droppedChannel, .exited], .terminated)
    | (env1, evs, .next st1) =>
      let out := runLoop fuel env1 st1
      (evs ++ out.1, out.2)

/-- All bytes consumed by the channel's write primitive during a run, in
order. -/
def writtenBytes (evs : List Event) : List Nat :=
  (evs.filterMap fun e => match e with | .wroteBytes bs => some bs | _ => none).flatten

/-- The payloads of all `Write` commands consumed from the command queue
during a run, in order. -/
def stagedPayloads (evs : List Event) : List (List Nat) :=
  evs.filterMap fun e => match e with | .consumedCommand (.write d) => some d | _ => none

/-- All commands consumed from the command queue during a run, in order. -/
def cmdEvents (evs : List Event) : List PtyCommand :=
  evs.filterMap fun e => match e with | .consumedCommand c => some c | _ => none

/-- The unflushed suffix of the write already admitted to the loop, if any. -/
def initPayloads (st : LoopState) : List (List Nat) :=
  match st.pending with
  | some (data, offset) => [data.drop offset]
  | none => []

/-- The bytes of the pending write not yet handed to the channel. -/
def pendingRem (st : LoopState) : List Nat :=
  match st.pending with
  | some (data, offset) => data.drop offset
  | none => []

/-- `FlushSeq ps w` says the byte sequence `w` consists of every payload of
`ps` except possibly the last written out in full, exactly once and in order,
followed by a prefix of the last payload: no payload is dropped, duplicated,
reordered or interleaved. -/
inductive FlushSeq : List (List Nat) → List Nat → Prop
  | nil : FlushSeq [] []
  | last (p : List Nat) (k : Nat) : FlushSeq [p] (p.take k)
  | cons (p : List Nat) (ps : List (List Nat)) (w : List Nat) :
      FlushSeq ps w → FlushSeq (p :: ps) (p ++ w)

/-- The invariant proved about every run of the I/O loop: the bytes consumed
by the write primitive are exactly the staged payloads flushed in order
(`FlushSeq`), and if fuel runs out mid-run the bytes written so far plus the
bytes still held pending add up to exactly all staged payloads — the pending
buffer is never discarded before it is fully flushed. -/
def FlushInv (fuel : Nat) (env : Env) (st : LoopState) : Prop :=
  FlushSeq (initPayloads st ++ stagedPayloads (runLoop fuel env st).1)
      (writtenBytes (runLoop fuel env st).1) ∧
    ∀ st', (runLoop fuel env st).2 = .fuelOut st' →
      writtenBytes (runLoop fuel env st).1 ++ pendingRem st' =
        (initPayloads st ++ stagedPayloads (runLoop fuel env st).1).flatten

/-- `closeIsLast cs` holds when `close`, if it occurs among the consumed
commands `cs`, is the last one consumed. -/
def closeIsLast : List PtyCommand → Bool
  | [] => true
  | .close :: rest => rest.isEmpty
  | _ :: rest => closeIsLast rest

/-- The part of `Ssh2PtyClient` relevant to `close()`: whether `command_tx`
and `session` are still `Some`. -/
structure Ssh2PtyClient where
  command_tx : Bool
  session : Bool
  deriving DecidableEq, Repr

/-- `Ssh2PtyClient::close` (lines 202–210): take `command_tx` and send `Close`
best-effort (the send result is ignored, so a dead loop causes no error), take
the session and disconnect it, and return `Ok(())` unconditionally.  Returns
the new state, the commands sent into the queue, and the success flag. -/
def Ssh2PtyClient.close (c : Ssh2PtyClient) : Ssh2PtyClient × List PtyCommand × Bool :=
  (⟨false, false⟩, if c.command_tx then [PtyCommand.close] else [], true)

/-- Credentials from the `connect` control message (`SshCredentials` in
`models.rs`). -/
structure SshCredentials where
  hostname : String
  port : Nat
  username : String
  password : String
  deriving DecidableEq, Repr

/-- Parsed client control messages (`enum ClientMessage`). -/
inductive ClientMessage
  | connect (credentials : SshCredentials) (col_width row_height : Option Nat)
  | input (data : String)
  | resize (width height : Nat)
  | disconnect
  deriving DecidableEq, Repr

/-- JSON frames the Session Actor emits to the client, modelled structurally
(`serde_json::json!` payloads sent via `ctx.text`).  Output data is kept as
the raw byte list; the lossy UTF-8 decoding applied by the library before
embedding into JSON is abstracted. -/
inductive OutFrame
  | connectedF (host : String) (port : Nat) (username : String)
  | outputF (data : List Nat)
  | errorF (message : String)
  | disconnectedF
  deriving DecidableEq, Repr

/-- Side effects of the Session Actor other than frames: tasks spawned and
transport-control frames sent (the pong reply to a ping, the heartbeat ping,
the async connect task, forwarding into the bridge, closing the client). -/
inductive Effect
  | spawnConnect (credentials : SshCredentials) (col_width row_height : Option Nat)
  | ptyWrite (data : String)
  | ptyResize (width height : Nat)
  | closeClient
  | pongReply (bs : List Nat)
  deriving DecidableEq, Repr

/-- Actor-state fields of `WsSshPtySession` (`actors.rs`): the last-heartbeat
instant (abstracted to a `Nat` timestamp), whether an `AnyPtyClient` is bound,
and the `connected` flag. -/
structure WsSshPtySession where
  hb : Nat
  ssh_client : Bool
  connected : Bool
  deriving DecidableEq, Repr

/-- `WsSshPtySession::new`. -/
def WsSshPtySession.new (now : Nat) : WsSshPtySession :=
  { hb := now, ssh_client := false, connected := false }

/-- `WsSshPtySession::send_error`: emit one error frame. -/
def send_error (st : WsSshPtySession) (message : String) :
    WsSshPtySession × List OutFrame × List Effect :=
  (st, [.errorF message], [])

/-- `WsSshPtySession::disconnect_ssh` (lines 43–59): take the client (if any)
and spawn its close, clear `connected`, and unconditionally emit one
`disconnected` frame. -/
def disconnect_ssh (st : WsSshPtySession) : WsSshPtySession × List OutFrame × List Effect :=
  ({ st with ssh_client := false, connected := false }, [.disconnectedF],
    if st.ssh_client then [.closeClient] else [])

/-- `WsSshPtySession::handle_connect` (lines 67–137): reject only when
`connected` is already true; otherwise spawn the async connect task.  The
actor state itself is not changed by this handler. -/
def handle_connect (st : WsSshPtySession) (credentials : SshCredentials)
    (pty_cols pty_rows : Option Nat) : WsSshPtySession × List OutFrame × List Effect :=
  if st.connected then
    send_error st "已有活跃的SSH连接，请先断开"
  else
    (st, [], [.spawnConnect credentials pty_cols pty_rows])

/-- `WsSshPtySession::handle_input` (lines 139–173): error frame when not
connected; forward the data as a write into the bridge when a client is
bound; error frame when connected but no client is bound. -/
def handle_input (st : WsSshPtySession) (data : String) :
    WsSshPtySession × List OutFrame × List Effect :=
  if !st.connected then
    send_error st "SSH连接未建立"
  else if st.ssh_client then
    (st, [], [.ptyWrite data])
  else
    send_error st "SSH客户端未初始化"

/-- `WsSshPtySession::handle_resize` (lines 175–190): error frame when not
connected; a resize command when a client is bound; silently nothing
otherwise. -/
def handle_resize (st : WsSshPtySession) (width height : Nat) :
    WsSshPtySession × List OutFrame × List Effect :=
  if !st.connected then
    send_error st "SSH连接未建立"
  else if st.ssh_client then
    (st, [], [.ptyResize width height])
  else
    (st, [], [])

/-- Dispatch of a successfully parsed control message (lines 277–294). -/
def handle_client_message (st : WsSshPtySession) :
    ClientMessage → WsSshPtySession × List OutFrame × List Effect
  | .connect credentials cw rh => handle_connect st credentials cw rh
  | .input data => handle_input st data
  | .resize width height => handle_resize st width height
  | .disconnect => disconnect_ssh st

/-- `text.trim_start().starts_with('{')` (line 270). -/
def starts_with_json (text : String) : Bool :=
  text.trimLeft.startsWith (Char.ofNat 123).toString

/-- `WsSshPtySession::handle_text_message` (lines 260–307).  The serde JSON
parse of `ClientMessage` is a library call and is abstracted as the `parse`
parameter; everything else mirrors the source: empty text is ignored, text
whose first non-blank character opens a JSON object is parsed (and falls back
to raw input on parse failure), and all other text is raw input. -/
def handle_text_message (parse : String → Option ClientMessage)
    (st : WsSshPtySession) (text : String) : WsSshPtySession × List OutFrame × List Effect :=
  if text.isEmpty then
    (st, [], [])
  else if starts_with_json text then
    match parse text.trim with
    | some msg => handle_client_message st msg
    | none => handle_input st text
  else
    handle_input st text

/-- Inbound transport messages seen by the `StreamHandler` impl. -/
inductive WsMessage
  | ping (bs : List Nat)
  | pong (bs : List Nat)
  | text (s : String)
  | binary (bs : List Nat)
  | closeFrame
  | other
  deriving Repr

/-- `StreamHandler::handle` (lines 231–257).  `decode` abstracts
`String::from_utf8_lossy`; `now` is the current instant.  The final `Bool`
records whether `ctx.stop()` was called. -/
def stream_handle (parse : String → Option ClientMessage) (decode : List Nat → String)
    (now : Nat) (st : WsSshPtySession) :
    WsMessage → WsSshPtySession × List OutFrame × List Effect × Bool
  | .ping bs => ({ st with hb := now }, [], [.pongReply bs], false)
  | .pong _ => ({ st with hb := now }, [], [], false)
  | .text s =>
    let out := handle_text_message parse { st with hb := now } s
    (out.1, out.2.1, out.2.2, false)
  | .binary bs =>
    let out := handle_text_message parse { st with hb := now } (decode bs)
    (out.1, out.2.1, out.2.2, false)
  | .closeFrame => (st, [], [], true)
  | .other => (st, [], [], true)

/-- `HEARTBEAT_INTERVAL` is 5s, `CLIENT_TIMEOUT` is 10s (lines 331–332);
modelled in seconds. -/
def CLIENT_TIMEOUT : Nat := 10

/-- One firing of the heartbeat interval timer (lines 24–40): if the elapsed
time since the last heartbeat exceeds the timeout, disconnect and stop the
actor; otherwise send a ping.  The final `Bool` records `ctx.stop()`. -/
def hb_tick (now : Nat) (st : WsSshPtySession) :
    WsSshPtySession × List OutFrame × List Effect × Bool :=
  if CLIENT_TIMEOUT < now - st.hb then
    let out := disconnect_ssh st
    (out.1, out.2.1, out.2.2, true)
  else
    (st, [], [], false)

/-- `Actor::stopping` (lines 224–228): calls `disconnect_ssh` and returns
`Running::Stop`, after which the actor is in its final stopped state. -/
def stopping (st : WsSshPtySession) : WsSshPtySession × List OutFrame × List Effect :=
  disconnect_ssh st

/-- The complete heartbeat-timeout path: the timer fires and, because
`ctx.stop()` was called, actix then invokes the `stopping` hook before the
actor reaches its final state.  Returns the final state and all frames
emitted on the path. -/
def heartbeat_timeout_run (now : Nat) (st : WsSshPtySession) :
    WsSshPtySession × List OutFrame :=
  let t := hb_tick now st
  if t.2.2.2 then
    let s := stopping t.1
    (s.1, t.2.1 ++ s.2.1)
  else
    (t.1, t.2.1)

/-- Result of one step of the async connect sequence (`connect()`,
`create_pty_session()`, `start_pty_io()`), each of which returns
`Result<()>`. -/
inductive StepResult
  | ok
  | err (msg : String)
  deriving DecidableEq, Repr

/-- Oracle for one spawned connect task: the results of the three setup steps
and the output chunks the task receives from the output queue before that
queue closes. -/
structure ConnectOracle where
  connectR : StepResult
  createPtyR : StepResult
  startIoR : StepResult
  outputs : List (List Nat)
  deriving DecidableEq, Repr

/-- Messages the spawned connect task sends back to the actor's mailbox
(`SetSshClient` and `SendWsMessage` in `models.rs`). -/
inductive ActorMsg
  | setSshClient (connected : Bool)
  | sendWsMessage (frame : OutFrame)
  deriving DecidableEq, Repr

/-- The body of the task spawned by `handle_connect` (lines 89–136): run the
three setup steps, reporting the first failure as a single error frame and
stopping there; on success bind the client, report `connected`, and forward
every output chunk received until the output queue closes — after which the
task simply ends, sending nothing further. -/
def runConnectTask (credentials : SshCredentials) (o : ConnectOracle) : List ActorMsg :=
  match o.connectR with
  | .err e => [.sendWsMessage (.errorF ("SSH连接失败: " ++ e))]
  | .ok =>
    match o.createPtyR with
    | .err e => [.sendWsMessage (.errorF ("创建PTY会话失败: " ++ e))]
    | .ok =>
      match o.startIoR with
      | .err e => [.sendWsMessage (.errorF ("启动PTY IO失败: " ++ e))]
      | .ok =>
        .setSshClient true
          :: .sendWsMessage (.connectedF credentials.hostname credentials.port
              credentials.username)
          :: o.outputs.map (fun d => .sendWsMessage (.outputF d))

/-- The actor's handlers for mailbox messages (lines 313–328): `SetSshClient`
binds the client and sets `connected`; `SendWsMessage` emits the frame. -/
def deliver (st : WsSshPtySession) : ActorMsg → WsSshPtySession × List OutFrame
  | .setSshClient b => ({ st with ssh_client := true, connected := b }, [])
  | .sendWsMessage f => (st, [f])

/-- Deliver a list of mailbox messages in order, accumulating frames. -/
def deliverAll (st : WsSshPtySession) (acc : List OutFrame) :
    List ActorMsg → WsSshPtySession × List OutFrame
  | [] => (st, acc)
  | m :: rest =>
    let out := deliver st m
    deliverAll out.1 (acc ++ out.2) rest

/-- A whole connect attempt as observed at the actor: `handle_connect`
followed by the spawned task running to completion and its mailbox messages
being delivered. -/
def connectAttempt (st : WsSshPtySession) (credentials : SshCredentials)
    (cw rh : Option Nat) (o : ConnectOracle) : WsSshPtySession × List OutFrame :=
  let h := handle_connect st credentials cw rh
  let msgs := (h.2.2.map fun e =>
    match e with
    | .spawnConnect c _ _ => runConnectTask c o
    | _ => []).flatten
  deliverAll h.1 h.2.1 msgs

theorem stagedPayloads_append (a b : List Event) :
    stagedPayloads (a ++ b) = stagedPayloads a ++ stagedPayloads b := by
  simp [stagedPayloads, List.filterMap_append]

theorem writtenBytes_append (a b : List Event) :
    writtenBytes (a ++ b) = writtenBytes a ++ writtenBytes b := by
  simp [writtenBytes, List.filterMap_append]

theorem cmdEvents_append (a b : List Event) :
    cmdEvents (a ++ b) = cmdEvents a ++ cmdEvents b := by
  simp [cmdEvents, List.filterMap_append]

theorem flushSeq_prepend (c : List Nat) {p : List Nat} {ps : List (List Nat)} {w : List Nat}
    (h : FlushSeq (p :: ps) w) : FlushSeq ((c ++ p) :: ps) (c ++ w) := by
  cases h with
  | last _ k =>
    have hc : c ++ p.take k = (c ++ p).take (c.length + k) := (List.take_append k).symm
    rw [hc]
    exact .last _ _
  | cons _ _ w' hw =>
    rw [← List.append_assoc]
    exact .cons _ _ _ hw

theorem readPhase_spec (env : Env) :
    ∀ renv revs rout, readPhase env = (renv, revs, rout) →
      stagedPayloads revs = [] ∧ writtenBytes revs = [] ∧ cmdEvents revs = [] ∧
        (rout = .stop ∨ rout = .next ⟨none⟩) ∧ Event.exited ∉ revs := by
  obtain ⟨cs, ws, rs, ss⟩ := env
  intro renv revs rout heq
  cases rs with
  | nil =>
    simp only [readPhase, popRead, Prod.mk.injEq] at heq
    obtain ⟨-, rfl, rfl⟩ := heq
    simp [stagedPayloads, writtenBytes, cmdEvents]
  | cons r rest =>
    cases r with
    | ok data =>
      cases data with
      | nil =>
        simp only [readPhase, popRead, List.isEmpty_nil, if_true, Prod.mk.injEq] at heq
        obtain ⟨-, rfl, rfl⟩ := heq
        simp [stagedPayloads, writtenBytes, cmdEvents]
      | cons b bs =>
        cases ss with
        | nil =>
          simp only [readPhase, popRead, popSend, List.isEmpty_cons, Bool.false_eq_true,
            if_false, Prod.mk.injEq] at heq
          obtain ⟨-, rfl, rfl⟩ := heq
          simp [stagedPayloads, writtenBytes, cmdEvents]
        | cons s srest =>
          cases s with
          | ok =>
            simp only [readPhase, popRead, popSend, List.isEmpty_cons, Bool.false_eq_true,
              if_false, Prod.mk.injEq] at heq
            obtain ⟨-, rfl, rfl⟩ := heq
            simp [stagedPayloads, writtenBytes, cmdEvents]
          | closedErr =>
            simp only [readPhase, popRead, popSend, List.isEmpty_cons, Bool.false_eq_true,
              if_false, Prod.mk.injEq] at heq
            obtain ⟨-, rfl, rfl⟩ := heq
            simp [stagedPayloads, writtenBytes, cmdEvents]
    | wouldBlock =>
      simp only [readPhase, popRead, Prod.mk.injEq] at heq
      obtain ⟨-, rfl, rfl⟩ := heq
      simp [stagedPayloads, writtenBytes, cmdEvents]
    | ioErr =>
      simp only [readPhase, popRead, Prod.mk.injEq] at heq
      obtain ⟨-, rfl, rfl⟩ := heq
      simp [stagedPayloads, writtenBytes, cmdEvents]

theorem drainLoop_written (rs : List TryRecvResult) :
    writtenBytes (drainLoop rs).2.1 = [] := by
  induction rs with
  | nil => simp [drainLoop, writtenBytes]
  | cons r rest ih =>
    cases r with
    | ok c =>
      cases c with
      | write d => simp [drainLoop, writtenBytes]
      | resize w h => simpa [drainLoop, writtenBytes] using ih
      | close => simp [drainLoop, writtenBytes]
    | empty => simp [drainLoop, writtenBytes]
    | disconnected => simp [drainLoop, writtenBytes]

theorem drainLoop_no_exited (rs : List TryRecvResult) :
    Event.exited ∉ (drainLoop rs).2.1 := by
  induction rs with
  | nil => simp [drainLoop]
  | cons r rest ih =>
    cases r with
    | ok c =>
      cases c with
      | write d => simp [drainLoop]
      | resize w h => simpa [drainLoop] using ih
      | close => simp [drainLoop]
    | empty => simp [drainLoop]
    | disconnected => simp [drainLoop]

theorem drainLoop_staged (rs : List TryRecvResult) :
    stagedPayloads (drainLoop rs).2.1 =
      (match (drainLoop rs).2.2 with | .staged d => [d] | _ => []) := by
  induction rs with
  | nil => simp [drainLoop, stagedPayloads]
  | cons r rest ih =>
    cases r with
    | ok c =>
      cases c with
      | write d => simp [drainLoop, stagedPayloads]
      | resize w h => simpa [drainLoop, stagedPayloads] using ih
      | close => simp [drainLoop, stagedPayloads]
    | empty => simp [drainLoop, stagedPayloads]
    | disconnected => simp [drainLoop, stagedPayloads]

theorem drainLoop_closeIsLast (rs : List TryRecvResult) :
    ((drainLoop rs).2.2 ≠ .terminate → PtyCommand.close ∉ cmdEvents (drainLoop rs).2.1) ∧
      closeIsLast (cmdEvents (drainLoop rs).2.1) = true := by
  induction rs with
  | nil => simp [drainLoop, cmdEvents, closeIsLast]
  | cons r rest ih =>
    cases r with
    | ok c =>
      cases c with
      | write d => simp [drainLoop, cmdEvents, closeIsLast]
      | resize w h =>
        obtain ⟨ih1, ih2⟩ := ih
        refine ⟨fun hterm => ?_, ?_⟩ <;>
          simp [drainLoop, cmdEvents, closeIsLast] at *
        · exact ih1 hterm
        · exact ih2
      | close => simp [drainLoop, cmdEvents, closeIsLast]
    | empty => simp [drainLoop, cmdEvents, closeIsLast]
    | disconnected => simp [drainLoop, cmdEvents, closeIsLast]

theorem drop_take_drop (data : List Nat) (off n : Nat) :
    (data.drop off).take n ++ data.drop (off + n) = data.drop off := by
  rw [← List.drop_drop]
  exact List.take_append_drop n (data.drop off)

theorem writePhase_ge {data : List Nat} {off : Nat} (env : Env)
    (h : ¬ off < data.length) : writePhase env data off = readPhase env := by
  simp [writePhase, h]

theorem writePhase_wb_nil {data : List Nat} {off : Nat} (cs rs ss)
    (hlt : off < data.length) :
    writePhase ⟨cs, [], rs, ss⟩ data off =
      (⟨cs, [], rs, ss⟩, [.slept 10], .next ⟨some (data, off)⟩) := by
  simp [writePhase, popWrite, hlt]

theorem writePhase_wb {data : List Nat} {off : Nat} (cs wrest rs ss)
    (hlt : off < data.length) :
    writePhase ⟨cs, .wouldBlock :: wrest, rs, ss⟩ data off =
      (⟨cs, wrest, rs, ss⟩, [.slept 10], .next ⟨some (data, off)⟩) := by
  simp [writePhase, popWrite, hlt]

theorem writePhase_err {data : List Nat} {off : Nat} (cs wrest rs ss)
    (hlt : off < data.length) :
    writePhase ⟨cs, .ioErr :: wrest, rs, ss⟩ data off =
      (⟨cs, wrest, rs, ss⟩, [.writeError], .stop) := by
  simp [writePhase, popWrite, hlt]

theorem writePhase_ok_more {data : List Nat} {off n : Nat} (cs wrest rs ss)
    (hlt : off < data.length) (hn : off + n < data.length) :
    writePhase ⟨cs, .ok n :: wrest, rs, ss⟩ data off =
      (⟨cs, wrest, rs, ss⟩, [.wroteBytes ((data.drop off).take n), .slept 1],
        .next ⟨some (data, off + n)⟩) := by
  simp [writePhase, popWrite, hlt, hn]

theorem writePhase_ok_full {data : List Nat} {off n : Nat} (cs wrest rs ss)
    (hlt : off < data.length) (hn : ¬ off + n < data.length) :
    writePhase ⟨cs, .ok n :: wrest, rs, ss⟩ data off =
      ((readPhase ⟨cs, wrest, rs, ss⟩).1,
        .wroteBytes ((data.drop off).take n) :: .flushedChannel ::
          (readPhase ⟨cs, wrest, rs, ss⟩).2.1,
        (readPhase ⟨cs, wrest, rs, ss⟩).2.2) := by
  simp [writePhase, popWrite, hlt, hn]

theorem writePhase_flush (fuel : Nat)
    (ih : ∀ env st, FlushInv fuel env st)
    (env : Env) (data : List Nat) (off : Nat) :
    (∀ env1 evs st1, writePhase env data off = (env1, evs, .next st1) →
      FlushSeq (data.drop off :: stagedPayloads (evs ++ (runLoop fuel env1 st1).1))
          (writtenBytes (evs ++ (runLoop fuel env1 st1).1)) ∧
        ∀ st', (runLoop fuel env1 st1).2 = .fuelOut st' →
          writtenBytes (evs ++ (runLoop fuel env1 st1).1) ++ pendingRem st' =
            (data.drop off :: stagedPayloads (evs ++ (runLoop fuel env1 st1).1)).flatten) ∧
    (∀ env1 evs, writePhase env data off = (env1, evs, .stop) →
      FlushSeq [data.drop off] (writtenBytes evs) ∧ stagedPayloads evs = []) := by
  by_cases hlt : off < data.length
  · obtain ⟨cs, ws, rs, ss⟩ := env
    cases ws with
    | nil =>
      refine ⟨?_, ?_⟩
      · intro env1 evs st1 heq
        rw [writePhase_wb_nil cs rs ss hlt] at heq
        simp only [Prod.mk.injEq, IterOut.next.injEq] at heq
        obtain ⟨rfl, rfl, rfl⟩ := heq
        have hin := ih ⟨cs, [], rs, ss⟩ ⟨some (data, off)⟩
        unfold FlushInv at hin
        have hs1 : stagedPayloads [Event.slept 10] = [] := by simp [stagedPayloads]
        have hw1 : writtenBytes [Event.slept 10] = [] := by simp [writtenBytes]
        refine ⟨?_, ?_⟩
        · rw [stagedPayloads_append, writtenBytes_append, hs1, hw1, List.nil_append,
            List.nil_append]
          simpa [initPayloads] using hin.1
        · intro st' hst
          rw [stagedPayloads_append, writtenBytes_append, hs1, hw1, List.nil_append,
            List.nil_append]
          simpa [initPayloads] using hin.2 st' hst
      · intro env1 evs heq
        rw [writePhase_wb_nil cs rs ss hlt] at heq
        simp at heq
    | cons w wrest =>
      cases w with
      | ok n =>
        by_cases hn : off + n < data.length
        · refine ⟨?_, ?_⟩
          · intro env1 evs st1 heq
            rw [writePhase_ok_more cs wrest rs ss hlt hn] at heq
            simp only [Prod.mk.injEq, IterOut.next.injEq] at heq
            obtain ⟨rfl, rfl, rfl⟩ := heq
            have hin := ih ⟨cs, wrest, rs, ss⟩ ⟨some (data, off + n)⟩
            unfold FlushInv at hin
            have hs1 : stagedPayloads
                [Event.wroteBytes ((data.drop off).take n), Event.slept 1] = [] := by
              simp [stagedPayloads]
            have hw1 : writtenBytes
                [Event.wroteBytes ((data.drop off).take n), Event.slept 1] =
                (data.drop off).take n := by
              simp [writtenBytes]
            refine ⟨?_, ?_⟩
            · rw [stagedPayloads_append, writtenBytes_append, hs1, hw1, List.nil_append]
              have hfs : FlushSeq (data.drop (off + n) ::
                  stagedPayloads (runLoop fuel ⟨cs, wrest, rs, ss⟩
                    ⟨some (data, off + n)⟩).1)
                  (writtenBytes (runLoop fuel ⟨cs, wrest, rs, ss⟩
                    ⟨some (data, off + n)⟩).1) := by
                simpa [initPayloads] using hin.1
              have hpre := flushSeq_prepend ((data.drop off).take n) hfs
              rwa [drop_take_drop] at hpre
            · intro st' hst
              have heq2 := hin.2 st' hst
              simp only [initPayloads, List.singleton_append, List.flatten_cons] at heq2
              rw [stagedPayloads_append, writtenBytes_append, hs1, hw1, List.nil_append,
                List.flatten_cons, List.append_assoc, heq2, ← List.append_assoc,
                drop_take_drop, ← List.flatten_cons]
          · intro env1 evs heq
            rw [writePhase_ok_more cs wrest rs ss hlt hn] at heq
            simp at heq
        · -- full consumption of the remaining suffix
          have hcons : (data.drop off).take n = data.drop off := by
            apply List.take_of_length_le
            rw [List.length_drop]
            omega
          rcases hrp : readPhase ⟨cs, wrest, rs, ss⟩ with ⟨renv, revs, rout⟩
          obtain ⟨rstag, rwrit, rcmd, rd, rex⟩ :=
            readPhase_spec ⟨cs, wrest, rs, ss⟩ renv revs rout hrp
          have hs1 : stagedPayloads (Event.wroteBytes ((data.drop off).take n) ::
              Event.flushedChannel :: revs) = [] := by
            show stagedPayloads ([Event.wroteBytes ((data.drop off).take n),
              Event.flushedChannel] ++ revs) = []
            rw [stagedPayloads_append, rstag]
            simp [stagedPayloads]
          have hw1 : writtenBytes (Event.wroteBytes ((data.drop off).take n) ::
              Event.flushedChannel :: revs) = data.drop off := by
            show writtenBytes ([Event.wroteBytes ((data.drop off).take n),
              Event.flushedChannel] ++ revs) = data.drop off
            rw [writtenBytes_append, rwrit, List.append_nil]
            simp [writtenBytes, hcons]
          refine ⟨?_, ?_⟩
          · intro env1 evs st1 heq
            rw [writePhase_ok_full cs wrest rs ss hlt hn, hrp] at heq
            simp only [Prod.mk.injEq] at heq
            obtain ⟨rfl, rfl, hout⟩ := heq
            rcases rd with hstop | hnext
            · rw [hstop] at hout
              simp at hout
            · rw [hnext] at hout
              simp only [IterOut.next.injEq] at hout
              obtain rfl := hout
              have hin := ih renv ⟨none⟩
              unfold FlushInv at hin
              refine ⟨?_, ?_⟩
              · rw [stagedPayloads_append, writtenBytes_append, hs1, hw1, List.nil_append]
                exact .cons _ _ _ (by simpa [initPayloads] using hin.1)
              · intro st' hst
                have heq2 : writtenBytes (runLoop fuel renv ⟨none⟩).1 ++ pendingRem st' =
                    (stagedPayloads (runLoop fuel renv ⟨none⟩).1).flatten := by
                  simpa [initPayloads] using hin.2 st' hst
                rw [stagedPayloads_append, writtenBytes_append, hs1, hw1, List.nil_append,
                  List.flatten_cons, List.append_assoc, heq2]
          · intro env1 evs heq
            rw [writePhase_ok_full cs wrest rs ss hlt hn, hrp] at heq
            simp only [Prod.mk.injEq] at heq
            obtain ⟨rfl, rfl, hout⟩ := heq
            refine ⟨?_, hs1⟩
            rw [hw1]
            have hlast := FlushSeq.last (data.drop off) (data.drop off).length
            rwa [List.take_length] at hlast
      | wouldBlock =>
        refine ⟨?_, ?_⟩
        · intro env1 evs st1 heq
          rw [writePhase_wb cs wrest rs ss hlt] at heq
          simp only [Prod.mk.injEq, IterOut.next.injEq] at heq
          obtain ⟨rfl, rfl, rfl⟩ := heq
          have hin := ih ⟨cs, wrest, rs, ss⟩ ⟨some (data, off)⟩
          unfold FlushInv at hin
          have hs1 : stagedPayloads [Event.slept 10] = [] := by simp [stagedPayloads]
          have hw1 : writtenBytes [Event.slept 10] = [] := by simp [writtenBytes]
          refine ⟨?_, ?_⟩
          · rw [stagedPayloads_append, writtenBytes_append, hs1, hw1, List.nil_append,
              List.nil_append]
            simpa [initPayloads] using hin.1
          · intro st' hst
            rw [stagedPayloads_append, writtenBytes_append, hs1, hw1, List.nil_append,
              List.nil_append]
            simpa [initPayloads] using hin.2 st' hst
        · intro env1 evs heq
          rw [writePhase_wb cs wrest rs ss hlt] at heq
          simp at heq
      | ioErr =>
        refine ⟨?_, ?_⟩
        · intro env1 evs st1 heq
          rw [writePhase_err cs wrest rs ss hlt] at heq
          simp at heq
        · intro env1 evs heq
          rw [writePhase_err cs wrest rs ss hlt] at heq
          simp only [Prod.mk.injEq] at heq
          obtain ⟨rfl, rfl, _⟩ := heq
          refine ⟨?_, by simp [stagedPayloads]⟩
          have hlast := FlushSeq.last (data.drop off) 0
          simpa [writtenBytes] using hlast
  · rcases hrp : readPhase env with ⟨renv, revs, rout⟩
    obtain ⟨rstag, rwrit, rcmd, rd, rex⟩ := readPhase_spec env renv revs rout hrp
    have hdrop : data.drop off = [] := List.drop_eq_nil_of_le (by omega)
    refine ⟨?_, ?_⟩
    · intro env1 evs st1 heq
      rw [writePhase_ge env hlt, hrp] at heq
      simp only [Prod.mk.injEq] at heq
      obtain ⟨rfl, rfl, hout⟩ := heq
      rcases rd with hstop | hnext
      · rw [hstop] at hout
        simp at hout
      · rw [hnext] at hout
        simp only [IterOut.next.injEq] at hout
        obtain rfl := hout
        have hin := ih renv ⟨none⟩
        unfold FlushInv at hin
        refine ⟨?_, ?_⟩
        · rw [stagedPayloads_append, writtenBytes_append, rstag, rwrit, List.nil_append,
            List.nil_append, hdrop]
          have hc := FlushSeq.cons []
            (stagedPayloads (runLoop fuel renv ⟨none⟩).1)
            (writtenBytes (runLoop fuel renv ⟨none⟩).1)
            (by simpa [initPayloads] using hin.1)
          simpa using hc
        · intro st' hst
          have heq2 : writtenBytes (runLoop fuel renv ⟨none⟩).1 ++ pendingRem st' =
              (stagedPayloads (runLoop fuel renv ⟨none⟩).1).flatten := by
            simpa [initPayloads] using hin.2 st' hst
          rw [stagedPayloads_append, writtenBytes_append, rstag, rwrit, List.nil_append,
            List.nil_append, hdrop, List.flatten_cons, List.nil_append, heq2]
    · intro env1 evs heq
      rw [writePhase_ge env hlt, hrp] at heq
      simp only [Prod.mk.injEq] at heq
      obtain ⟨rfl, rfl, _⟩ := heq
      refine ⟨?_, rstag⟩
      rw [rwrit]
      have hlast := FlushSeq.last (data.drop off) 0
      simpa using hlast

theorem drainLoop_spec (rs : List TryRecvResult) (rest : List TryRecvResult)
    (devs : List Event) (dout : DrainOutcome) (h : drainLoop rs = (rest, devs, dout)) :
    writtenBytes devs = [] ∧ Event.exited ∉ devs ∧
      (∀ d, dout = .staged d → stagedPayloads devs = [d]) ∧
      (dout = .idle → stagedPayloads devs = []) ∧
      (dout = .terminate → stagedPayloads devs = []) ∧
      (dout ≠ .terminate → PtyCommand.close ∉ cmdEvents devs) ∧
      closeIsLast (cmdEvents devs) = true := by
  have h1 := drainLoop_written rs
  have h2 := drainLoop_no_exited rs
  have h3 := drainLoop_staged rs
  have h4 := drainLoop_closeIsLast rs
  rw [h] at h1 h2 h3 h4
  refine ⟨h1, h2, ?_, ?_, ?_, h4.1, h4.2⟩
  · intro d hd2
    rw [hd2] at h3
    simpa using h3
  · intro hd2
    rw [hd2] at h3
    simpa using h3
  · intro hd2
    rw [hd2] at h3
    simpa using h3

theorem loopIter_pending (env : Env) (data : List Nat) (off : Nat) :
    loopIter env ⟨some (data, off)⟩ = writePhase env data off := rfl

theorem loopIter_none_terminate (env : Env) (rest devs)
    (hd : drainLoop env.recvs = (rest, devs, .terminate)) :
    loopIter env ⟨none⟩ = ({ env with recvs := rest }, devs, .stop) := by
  simp [loopIter, hd]

theorem loopIter_none_idle (env : Env) (rest devs) (renv revs rout)
    (hd : drainLoop env.recvs = (rest, devs, .idle))
    (hrp : readPhase { env with recvs := rest } = (renv, revs, rout)) :
    loopIter env ⟨none⟩ = (renv, devs ++ revs, rout) := by
  simp [loopIter, hd, hrp]

theorem loopIter_none_staged (env : Env) (rest devs data) (wenv wevs wout)
    (hd : drainLoop env.recvs = (rest, devs, .staged data))
    (hwp : writePhase { env with recvs := rest } data 0 = (wenv, wevs, wout)) :
    loopIter env ⟨none⟩ = (wenv, devs ++ wevs, wout) := by
  simp [loopIter, hd, hwp]

theorem runLoop_succ_next_fst (fuel : Nat) (env : Env) (st : LoopState) (env1 evs st1)
    (h : loopIter env st = (env1, evs, .next st1)) :
    (runLoop (fuel + 1) env st).1 = evs ++ (runLoop fuel env1 st1).1 := by
  simp [runLoop, h]

theorem runLoop_succ_next_snd (fuel : Nat) (env : Env) (st : LoopState) (env1 evs st1)
    (h : loopIter env st = (env1, evs, .next st1)) :
    (runLoop (fuel + 1) env st).2 = (runLoop fuel env1 st1).2 := by
  simp [runLoop, h]

theorem runLoop_succ_stop_fst (fuel : Nat) (env : Env) (st : LoopState) (env1 evs)
    (h : loopIter env st = (env1, evs, .stop)) :
    (runLoop (fuel + 1) env st).1 = evs ++ [.droppedChannel, .exited] := by
  simp [runLoop, h]

theorem runLoop_succ_stop_snd (fuel : Nat) (env : Env) (st : LoopState) (env1 evs)
    (h : loopIter env st = (env1, evs, .stop)) :
    (runLoop (fuel + 1) env st).2 = .terminated := by
  simp [runLoop, h]

/-- C1: every byte payload staged as a `Write` command in the Pty Bridge I/O
loop is consumed by the channel's write primitive exactly once and in order —
across arbitrary schedules of partial counts and would-block indications the
bytes handed to `channel.write` form the staged payloads flushed in sequence
(`FlushSeq`), with no bytes dropped, duplicated or reordered, and whenever the
run is interrupted the bytes written so far plus the bytes still held in the
pending buffer account exactly for every staged payload: the pending buffer is
never discarded before it is fully flushed. -/
theorem c1_pty_write_exact_flush : ∀ (fuel : Nat) (env : Env) (st : LoopState),
    FlushInv fuel env st := by
  intro fuel
  induction fuel with
  | zero =>
    intro env st
    unfold FlushInv
    constructor
    · obtain ⟨p⟩ := st
      cases p with
      | none => simpa [runLoop, initPayloads, stagedPayloads, writtenBytes] using FlushSeq.nil
      | some dp =>
        obtain ⟨data, off⟩ := dp
        have hlast := FlushSeq.last (data.drop off) 0
        simpa [runLoop, initPayloads, stagedPayloads, writtenBytes] using hlast
    · intro st' hst
      simp only [runLoop, RunResult.fuelOut.injEq] at hst
      subst hst
      obtain ⟨p⟩ := st
      cases p with
      | none => simp [runLoop, initPayloads, pendingRem, stagedPayloads, writtenBytes]
      | some dp =>
        obtain ⟨data, off⟩ := dp
        simp [runLoop, initPayloads, pendingRem, stagedPayloads, writtenBytes]
  | succ fuel ih =>
    intro env st
    obtain ⟨p⟩ := st
    cases p with
    | some dp =>
      obtain ⟨data, off⟩ := dp
      have hwf := writePhase_flush fuel ih env data off
      rcases hwp : writePhase env data off with ⟨env1, evs, out⟩
      have hli : loopIter env ⟨some (data, off)⟩ = (env1, evs, out) := by
        rw [loopIter_pending, hwp]
      cases out with
      | next st1 =>
        have h1 := hwf.1 env1 evs st1 hwp
        unfold FlushInv
        rw [runLoop_succ_next_fst fuel env _ env1 evs st1 hli,
          runLoop_succ_next_snd fuel env _ env1 evs st1 hli]
        constructor
        · simpa [initPayloads] using h1.1
        · intro st' hst
          simpa [initPayloads] using h1.2 st' hst
      | stop =>
        have h1 := hwf.2 env1 evs hwp
        unfold FlushInv
        rw [runLoop_succ_stop_fst fuel env _ env1 evs hli,
          runLoop_succ_stop_snd fuel env _ env1 evs hli]
        constructor
        · have hs2 : stagedPayloads [Event.droppedChannel, Event.exited] = [] := by
            simp [stagedPayloads]
          have hw2 : writtenBytes [Event.droppedChannel, Event.exited] = [] := by
            simp [writtenBytes]
          rw [stagedPayloads_append, writtenBytes_append, hs2, hw2, List.append_nil,
            List.append_nil, h1.2, List.append_nil]
          simpa [initPayloads] using h1.1
        · intro st' hst
          simp at hst
    | none =>
      rcases hd : drainLoop env.recvs with ⟨rest, devs, dout⟩
      obtain ⟨hdw, hdex, hdst, hdid, hdtm, hdcl, hdcil⟩ :=
        drainLoop_spec env.recvs rest devs dout hd
      cases dout with
      | terminate =>
        have hli := loopIter_none_terminate env rest devs hd
        unfold FlushInv
        rw [runLoop_succ_stop_fst fuel env _ _ devs hli,
          runLoop_succ_stop_snd fuel env _ _ devs hli]
        constructor
        · have hs2 : stagedPayloads [Event.droppedChannel, Event.exited] = [] := by
            simp [stagedPayloads]
          have hw2 : writtenBytes [Event.droppedChannel, Event.exited] = [] := by
            simp [writtenBytes]
          rw [stagedPayloads_append, writtenBytes_append, hs2, hw2, List.append_nil,
            List.append_nil, hdw, hdtm rfl]
          simpa [initPayloads] using FlushSeq.nil
        · intro st' hst
          simp at hst
      | idle =>
        rcases hrp : readPhase { env with recvs := rest } with ⟨renv, revs, rout⟩
        obtain ⟨rstag, rwrit, rcmd, rd, rex⟩ :=
          readPhase_spec { env with recvs := rest } renv revs rout hrp
        have hli := loopIter_none_idle env rest devs renv revs rout hd hrp
        rcases rd with rfl | rfl
        · unfold FlushInv
          rw [runLoop_succ_stop_fst fuel env _ renv (devs ++ revs) hli,
            runLoop_succ_stop_snd fuel env _ renv (devs ++ revs) hli]
          constructor
          · have hs2 : stagedPayloads [Event.droppedChannel, Event.exited] = [] := by
              simp [stagedPayloads]
            have hw2 : writtenBytes [Event.droppedChannel, Event.exited] = [] := by
              simp [writtenBytes]
            rw [stagedPayloads_append, writtenBytes_append, hs2, hw2, List.append_nil,
              List.append_nil, stagedPayloads_append, writtenBytes_append, hdw, rwrit,
              hdid rfl, rstag]
            simpa [initPayloads] using FlushSeq.nil
          · intro st' hst
            simp at hst
        · have hin := ih renv ⟨none⟩
          unfold FlushInv at hin ⊢
          rw [runLoop_succ_next_fst fuel env _ renv (devs ++ revs) _ hli,
            runLoop_succ_next_snd fuel env _ renv (devs ++ revs) _ hli]
          constructor
          · rw [stagedPayloads_append, writtenBytes_append, stagedPayloads_append,
              writtenBytes_append, hdw, rwrit, hdid rfl, rstag]
            simpa [initPayloads] using hin.1
          · intro st' hst
            rw [stagedPayloads_append, writtenBytes_append, stagedPayloads_append,
              writtenBytes_append, hdw, rwrit, hdid rfl, rstag]
            simpa [initPayloads] using hin.2 st' hst
      | staged data =>
        rcases hwp : writePhase { env with recvs := rest } data 0 with ⟨wenv, wevs, wout⟩
        have hwf := writePhase_flush fuel ih { env with recvs := rest } data 0
        have hli := loopIter_none_staged env rest devs data wenv wevs wout hd hwp
        cases wout with
        | next st1 =>
          have h1 := hwf.1 wenv wevs st1 hwp
          rw [List.drop_zero] at h1
          unfold FlushInv
          rw [runLoop_succ_next_fst fuel env _ wenv (devs ++ wevs) st1 hli,
            runLoop_succ_next_snd fuel env _ wenv (devs ++ wevs) st1 hli]
          constructor
          · have hfs := h1.1
            rw [stagedPayloads_append, writtenBytes_append] at hfs
            rw [stagedPayloads_append, writtenBytes_append, stagedPayloads_append,
              writtenBytes_append, hdw, hdst data rfl]
            simpa [initPayloads] using hfs
          · intro st' hst
            have h2 := h1.2 st' hst
            rw [stagedPayloads_append, writtenBytes_append] at h2
            rw [stagedPayloads_append, writtenBytes_append, stagedPayloads_append,
              writtenBytes_append, hdw, hdst data rfl]
            simpa [initPayloads, List.flatten_cons, List.flatten_append,
              List.append_assoc] using h2
        | stop =>
          have h1 := hwf.2 wenv wevs hwp
          rw [List.drop_zero] at h1
          unfold FlushInv
          rw [runLoop_succ_stop_fst fuel env _ wenv (devs ++ wevs) hli,
            runLoop_succ_stop_snd fuel env _ wenv (devs ++ wevs) hli]
          constructor
          · have hs2 : stagedPayloads [Event.droppedChannel, Event.exited] = [] := by
              simp [stagedPayloads]
            have hw2 : writtenBytes [Event.droppedChannel, Event.exited] = [] := by
              simp [writtenBytes]
            rw [stagedPayloads_append, writtenBytes_append, hs2, hw2, List.append_nil,
              List.append_nil, stagedPayloads_append, writtenBytes_append, hdw,
              hdst data rfl, h1.2, List.append_nil, List.nil_append]
            simpa [initPayloads] using h1.1
          · intro st' hst
            simp at hst

theorem writePhase_cmds (env : Env) (data : List Nat) (off : Nat) (env1 evs out)
    (h : writePhase env data off = (env1, evs, out)) :
    cmdEvents evs = [] ∧ Event.exited ∉ evs := by
  by_cases hlt : off < data.length
  · obtain ⟨cs, ws, rs, ss⟩ := env
    cases ws with
    | nil =>
      rw [writePhase_wb_nil cs rs ss hlt] at h
      simp only [Prod.mk.injEq] at h
      obtain ⟨-, rfl, -⟩ := h
      simp [cmdEvents]
    | cons w wrest =>
      cases w with
      | ok n =>
        by_cases hn : off + n < data.length
        · rw [writePhase_ok_more cs wrest rs ss hlt hn] at h
          simp only [Prod.mk.injEq] at h
          obtain ⟨-, rfl, -⟩ := h
          simp [cmdEvents]
        · rcases hrp : readPhase ⟨cs, wrest, rs, ss⟩ with ⟨renv, revs, rout⟩
          obtain ⟨-, -, rcmd, -, rex⟩ := readPhase_spec ⟨cs, wrest, rs, ss⟩ renv revs rout hrp
          rw [writePhase_ok_full cs wrest rs ss hlt hn, hrp] at h
          simp only [Prod.mk.injEq] at h
          obtain ⟨-, rfl, -⟩ := h
          constructor
          · show cmdEvents ([Event.wroteBytes ((data.drop off).take n),
              Event.flushedChannel] ++ revs) = []
            rw [cmdEvents_append, rcmd]
            simp [cmdEvents]
          · simp only [List.mem_cons, not_or]
            exact ⟨by simp, by simp, rex⟩
      | wouldBlock =>
        rw [writePhase_wb cs wrest rs ss hlt] at h
        simp only [Prod.mk.injEq] at h
        obtain ⟨-, rfl, -⟩ := h
        simp [cmdEvents]
      | ioErr =>
        rw [writePhase_err cs wrest rs ss hlt] at h
        simp only [Prod.mk.injEq] at h
        obtain ⟨-, rfl, -⟩ := h
        simp [cmdEvents]
  · rcases hrp : readPhase env with ⟨renv, revs, rout⟩
    obtain ⟨-, -, rcmd, -, rex⟩ := readPhase_spec env renv revs rout hrp
    rw [writePhase_ge env hlt, hrp] at h
    simp only [Prod.mk.injEq] at h
    obtain ⟨-, rfl, -⟩ := h
    exact ⟨rcmd, rex⟩

theorem loopIter_no_exited (env : Env) (st : LoopState) (env1 evs out)
    (h : loopIter env st = (env1, evs, out)) : Event.exited ∉ evs := by
  obtain ⟨p⟩ := st
  cases p with
  | some dp =>
    obtain ⟨data, off⟩ := dp
    rw [loopIter_pending] at h
    exact (writePhase_cmds env data off env1 evs out h).2
  | none =>
    rcases hd : drainLoop env.recvs with ⟨rest, devs, dout⟩
    obtain ⟨hdw, hdex, -, -, -, -, -⟩ := drainLoop_spec env.recvs rest devs dout hd
    cases dout with
    | terminate =>
      rw [loopIter_none_terminate env rest devs hd] at h
      simp only [Prod.mk.injEq] at h
      obtain ⟨-, rfl, -⟩ := h
      exact hdex
    | idle =>
      rcases hrp : readPhase { env with recvs := rest } with ⟨renv, revs, rout⟩
      obtain ⟨-, -, -, -, rex⟩ := readPhase_spec { env with recvs := rest } renv revs rout hrp
      rw [loopIter_none_idle env rest devs renv revs rout hd hrp] at h
      simp only [Prod.mk.injEq] at h
      obtain ⟨-, rfl, -⟩ := h
      simp only [List.mem_append, not_or]
      exact ⟨hdex, rex⟩
    | staged data =>
      rcases hwp : writePhase { env with recvs := rest } data 0 with ⟨wenv, wevs, wout⟩
      have hcm := writePhase_cmds { env with recvs := rest } data 0 wenv wevs wout hwp
      rw [loopIter_none_staged env rest devs data wenv wevs wout hd hwp] at h
      simp only [Prod.mk.injEq] at h
      obtain ⟨-, rfl, -⟩ := h
      simp only [List.mem_append, not_or]
      exact ⟨hdex, hcm.2⟩

theorem closeIsLast_of_no_close (xs ys : List PtyCommand) (h : PtyCommand.close ∉ xs) :
    closeIsLast (xs ++ ys) = closeIsLast ys := by
  induction xs with
  | nil => rfl
  | cons x rest ih =>
    have hx : x ≠ PtyCommand.close := fun hc => h (by simp [hc])
    have hrest : PtyCommand.close ∉ rest := fun hm => h (by simp [hm])
    cases x with
    | write d => simpa [closeIsLast] using ih hrest
    | resize w hh => simpa [closeIsLast] using ih hrest
    | close => exact absurd rfl hx

theorem runLoop_closeIsLast (fuel : Nat) : ∀ (env : Env) (st : LoopState),
    closeIsLast (cmdEvents (runLoop fuel env st).1) = true := by
  induction fuel with
  | zero =>
    intro env st
    simp [runLoop, cmdEvents, closeIsLast]
  | succ fuel ih =>
    intro env st
    obtain ⟨p⟩ := st
    cases p with
    | some dp =>
      obtain ⟨data, off⟩ := dp
      rcases hwp : writePhase env data off with ⟨env1, evs, out⟩
      have hcm := writePhase_cmds env data off env1 evs out hwp
      have hli : loopIter env ⟨some (data, off)⟩ = (env1, evs, out) := by
        rw [loopIter_pending, hwp]
      cases out with
      | next st1 =>
        rw [runLoop_succ_next_fst fuel env _ env1 evs st1 hli, cmdEvents_append, hcm.1,
          List.nil_append]
        exact ih env1 st1
      | stop =>
        rw [runLoop_succ_stop_fst fuel env _ env1 evs hli, cmdEvents_append, hcm.1]
        simp [cmdEvents, closeIsLast]
    | none =>
      rcases hd : drainLoop env.recvs with ⟨rest, devs, dout⟩
      obtain ⟨hdw, hdex, hdst, hdid, hdtm, hdcl, hdcil⟩ :=
        drainLoop_spec env.recvs rest devs dout hd
      cases dout with
      | terminate =>
        have hli := loopIter_none_terminate env rest devs hd
        rw [runLoop_succ_stop_fst fuel env _ _ devs hli, cmdEvents_append]
        have h2 : cmdEvents [Event.droppedChannel, Event.exited] = [] := by simp [cmdEvents]
        rw [h2, List.append_nil]
        exact hdcil
      | idle =>
        rcases hrp : readPhase { env with recvs := rest } with ⟨renv, revs, rout⟩
        obtain ⟨-, -, rcmd, rd, -⟩ := readPhase_spec { env with recvs := rest } renv revs rout hrp
        have hli := loopIter_none_idle env rest devs renv revs rout hd hrp
        have hnc : PtyCommand.close ∉ cmdEvents devs := hdcl (by decide)
        rcases rd with rfl | rfl
        · rw [runLoop_succ_stop_fst fuel env _ renv (devs ++ revs) hli, cmdEvents_append,
            cmdEvents_append, rcmd, List.append_nil]
          have h2 : cmdEvents [Event.droppedChannel, Event.exited] = [] := by simp [cmdEvents]
          rw [h2, List.append_nil]
          exact hdcil
        · rw [runLoop_succ_next_fst fuel env _ renv (devs ++ revs) _ hli, cmdEvents_append,
            cmdEvents_append, rcmd, List.append_nil, closeIsLast_of_no_close _ _ hnc]
          exact ih renv ⟨none⟩
      | staged data =>
        rcases hwp : writePhase { env with recvs := rest } data 0 with ⟨wenv, wevs, wout⟩
        have hcm := writePhase_cmds { env with recvs := rest } data 0 wenv wevs wout hwp
        have hli := loopIter_none_staged env rest devs data wenv wevs wout hd hwp
        have hnc : PtyCommand.close ∉ cmdEvents devs := hdcl (by simp)
        cases wout with
        | next st1 =>
          rw [runLoop_succ_next_fst fuel env _ wenv (devs ++ wevs) st1 hli, cmdEvents_append,
            cmdEvents_append, hcm.1, List.append_nil, closeIsLast_of_no_close _ _ hnc]
          exact ih wenv st1
        | stop =>
          rw [runLoop_succ_stop_fst fuel env _ wenv (devs ++ wevs) hli, cmdEvents_append,
            cmdEvents_append, hcm.1, List.append_nil]
          have h2 : cmdEvents [Event.droppedChannel, Event.exited] = [] := by simp [cmdEvents]
          rw [h2, List.append_nil]
          exact hdcil

/-- C8: once the I/O loop has observed a `Close` command it closes the channel
and terminates, so `Close` is always the last command consumed in any run
(first conjunct) and a run whose next queued command is `Close` terminates in
that iteration (second conjunct); and `close()` is idempotent: calling it
again after it already took `command_tx` and the session changes nothing,
sends nothing, and still returns `Ok` (third conjunct; the first call itself
also always returns `Ok`). -/
theorem c8_close_terminal_idempotent :
    (∀ (fuel : Nat) (env : Env) (st : LoopState),
      closeIsLast (cmdEvents (runLoop fuel env st).1) = true) ∧
    (∀ (rest : List TryRecvResult) (ws : List WriteResult) (rs : List ReadResult)
        (ss : List SendResult) (fuel : Nat),
      (runLoop (fuel + 1) ⟨.ok .close :: rest, ws, rs, ss⟩ ⟨none⟩).2 = .terminated ∧
        Event.closedChannel ∈ (runLoop (fuel + 1) ⟨.ok .close :: rest, ws, rs, ss⟩ ⟨none⟩).1) ∧
    (∀ c : Ssh2PtyClient,
      Ssh2PtyClient.close (Ssh2PtyClient.close c).1 = (⟨false, false⟩, [], true) ∧
        (Ssh2PtyClient.close c).2.2 = true) := by
  refine ⟨runLoop_closeIsLast, ?_, ?_⟩
  · intro rest ws rs ss fuel
    have hd : drainLoop (Env.mk (.ok .close :: rest) ws rs ss).recvs =
        (rest, [.consumedCommand .close, .closedChannel], .terminate) := rfl
    have hli := loopIter_none_terminate ⟨.ok .close :: rest, ws, rs, ss⟩ rest _ hd
    constructor
    · exact runLoop_succ_stop_snd fuel _ _ _ _ hli
    · rw [runLoop_succ_stop_fst fuel _ _ _ _ hli]
      simp
  · intro c
    exact ⟨rfl, rfl⟩

/-- C9: on every termination path of the I/O loop — `Close` command, command
queue disconnection, write error, read error, EOF, output receiver gone — the
channel is released before the worker exits: the worker-exit event is always
immediately preceded by the channel being dropped (its destructor closing it,
best-effort), and on the explicit paths by `channel.close()` as well; no
`exited` event occurs earlier in the run. -/
theorem c9_channel_released_before_worker_exit (fuel : Nat) :
    ∀ (env : Env) (st : LoopState),
      (runLoop fuel env st).2 = .terminated →
        ∃ pre, (runLoop fuel env st).1 = pre ++ [Event.droppedChannel, Event.exited] ∧
          Event.exited ∉ pre := by
  induction fuel with
  | zero =>
    intro env st hst
    simp [runLoop] at hst
  | succ fuel ih =>
    intro env st hst
    rcases hli : loopIter env st with ⟨env1, evs, out⟩
    have hex := loopIter_no_exited env st env1 evs out hli
    cases out with
    | next st1 =>
      rw [runLoop_succ_next_snd fuel env st env1 evs st1 hli] at hst
      obtain ⟨pre2, hp, hnp⟩ := ih env1 st1 hst
      refine ⟨evs ++ pre2, ?_, ?_⟩
      · rw [runLoop_succ_next_fst fuel env st env1 evs st1 hli, hp, List.append_assoc]
      · simp only [List.mem_append, not_or]
        exact ⟨hex, hnp⟩
    | stop =>
      exact ⟨evs, runLoop_succ_stop_fst fuel env st env1 evs hli, hex⟩

/-- Witness for C9 at a concrete EOF-terminated run. -/
theorem c9_channel_released_before_worker_exit_witness :
    ∃ pre, (runLoop 1 ⟨[], [], [ReadResult.ok []], []⟩ ⟨none⟩).1 =
        pre ++ [Event.droppedChannel, Event.exited] ∧ Event.exited ∉ pre :=
  c9_channel_released_before_worker_exit 1 ⟨[], [], [ReadResult.ok []], []⟩ ⟨none⟩ rfl

/-- C5 counterexample: the claim says that in an iteration whose pending
write would-blocks, the loop still attempts one read in that same iteration.
In the code the would-block arm executes `continue`, restarting the loop, so
no read is attempted: here the channel has readable data scripted, the write
would-blocks, and the iteration performs only the backoff sleep — no
`readAttempt` occurs and the read data stays unconsumed. -/
theorem c5_wouldblock_skips_read_counterexample :
    (runLoop 1 ⟨[], [WriteResult.wouldBlock], [ReadResult.ok [7]], []⟩
        ⟨some ([1, 2], 0)⟩).1 = [Event.slept 10] ∧
      Event.readAttempt ∉
        (runLoop 1 ⟨[], [WriteResult.wouldBlock], [ReadResult.ok [7]], []⟩
          ⟨some ([1, 2], 0)⟩).1 ∧
      (runLoop 1 ⟨[], [WriteResult.wouldBlock], [ReadResult.ok [7]], []⟩
          ⟨some ([1, 2], 0)⟩).2 = .fuelOut ⟨some ([1, 2], 0)⟩ := by
  refine ⟨rfl, ?_, rfl⟩
  decide

/-- C5 amended: when the pending write attempt returns a would-block
indication, the loop keeps the same pending buffer and offset unchanged and
applies the short backoff delay, but then restarts the iteration (Rust
`continue`): no read is attempted in that iteration — the read is deferred
until the write stops would-blocking. -/
theorem c5_wouldblock_amended (cs : List TryRecvResult) (ws : List WriteResult)
    (rs : List ReadResult) (ss : List SendResult) (data : List Nat) (off : Nat)
    (hlt : off < data.length) :
    loopIter ⟨cs, .wouldBlock :: ws, rs, ss⟩ ⟨some (data, off)⟩ =
      (⟨cs, ws, rs, ss⟩, [Event.slept 10], .next ⟨some (data, off)⟩) ∧
      Event.readAttempt ∉
        (loopIter ⟨cs, .wouldBlock :: ws, rs, ss⟩ ⟨some (data, off)⟩).2.1 := by
  have h := @writePhase_wb data off cs ws rs ss hlt
  rw [loopIter_pending, h]
  exact ⟨rfl, by simp⟩

/-- Witness for C5 amended at a concrete input. -/
theorem c5_wouldblock_amended_witness :
    loopIter ⟨[], [WriteResult.wouldBlock], [ReadResult.ok [7]], []⟩ ⟨some ([1, 2], 0)⟩ =
      (⟨[], [], [ReadResult.ok [7]], []⟩, [Event.slept 10], .next ⟨some ([1, 2], 0)⟩) :=
  (c5_wouldblock_amended [] [] [ReadResult.ok [7]] [] [1, 2] 0 (by decide)).1

/-- C2: when any step of the connect chain — transport connect, pty
allocation, or I/O-loop start — fails, the whole attempt emits exactly one
frame, an error frame; the session state is returned unchanged (`connected`
stays false, no transport bound, i.e. still Idle); and a subsequent `connect`
on that state is accepted and spawns a new attempt. -/
theorem c2_connect_failure_single_error_idle (hbv : Nat) (cl : Bool)
    (credentials : SshCredentials) (cw rh : Option Nat) (o : ConnectOracle)
    (hfail : o.connectR ≠ .ok ∨ o.createPtyR ≠ .ok ∨ o.startIoR ≠ .ok) :
    ∃ m, connectAttempt ⟨hbv, cl, false⟩ credentials cw rh o =
        (⟨hbv, cl, false⟩, [OutFrame.errorF m]) ∧
      handle_connect ⟨hbv, cl, false⟩ credentials cw rh =
        (⟨hbv, cl, false⟩, [], [.spawnConnect credentials cw rh]) := by
  obtain ⟨cr, pr, ir, outs⟩ := o
  cases cr with
  | err e =>
    exact ⟨"SSH连接失败: " ++ e,
      by simp [connectAttempt, handle_connect, runConnectTask, deliverAll, deliver],
      by simp [handle_connect]⟩
  | ok =>
    cases pr with
    | err e =>
      exact ⟨"创建PTY会话失败: " ++ e,
        by simp [connectAttempt, handle_connect, runConnectTask, deliverAll, deliver],
        by simp [handle_connect]⟩
    | ok =>
      cases ir with
      | err e =>
        exact ⟨"启动PTY IO失败: " ++ e,
          by simp [connectAttempt, handle_connect, runConnectTask, deliverAll, deliver],
          by simp [handle_connect]⟩
      | ok => simp at hfail

/-- Witness for C2 at a concrete failing connect. -/
theorem c2_connect_failure_single_error_idle_witness :
    ∃ m, connectAttempt ⟨0, false, false⟩ ⟨"h", 22, "u", "p"⟩ none none
        ⟨.err "auth failed", .ok, .ok, []⟩ = (⟨0, false, false⟩, [OutFrame.errorF m]) ∧
      handle_connect ⟨0, false, false⟩ ⟨"h", 22, "u", "p"⟩ none none =
        (⟨0, false, false⟩, [], [.spawnConnect ⟨"h", 22, "u", "p"⟩ none none]) :=
  c2_connect_failure_single_error_idle 0 false ⟨"h", 22, "u", "p"⟩ none none
    ⟨.err "auth failed", .ok, .ok, []⟩ (Or.inl (by decide))

/-- C3 counterexample: the heartbeat-timeout path emits TWO `disconnected`
frames, not exactly one — `disconnect_ssh` sends the frame unconditionally,
and it runs once from the timer callback and once more from the `stopping`
hook triggered by `ctx.stop()`. -/
theorem c3_two_disconnected_frames_counterexample :
    (heartbeat_timeout_run 11 ⟨0, true, true⟩).2.count OutFrame.disconnectedF = 2 ∧
      ¬ (heartbeat_timeout_run 11 ⟨0, true, true⟩).2.count OutFrame.disconnectedF = 1 := by
  decide

/-- C3 amended: when no heartbeat has been observed for longer than the
timeout threshold, the timer callback runs `disconnect_ssh` and stops the
actor, and the stopping hook runs `disconnect_ssh` again: the path emits
exactly two `disconnected` frames (one from each call), leaves the stopped
actor with `connected` false and no client bound, and any `input` handled
after the disconnect yields an error frame rather than a crash. -/
theorem c3_heartbeat_timeout_amended (now : Nat) (st : WsSshPtySession)
    (htimeout : CLIENT_TIMEOUT < now - st.hb) :
    (heartbeat_timeout_run now st).2.count OutFrame.disconnectedF = 2 ∧
      (heartbeat_timeout_run now st).1.connected = false ∧
      (heartbeat_timeout_run now st).1.ssh_client = false ∧
      ∀ d, handle_input (heartbeat_timeout_run now st).1 d =
        ((heartbeat_timeout_run now st).1, [OutFrame.errorF "SSH连接未建立"], []) := by
  obtain ⟨hbv, sc, cn⟩ := st
  have h : heartbeat_timeout_run now ⟨hbv, sc, cn⟩ =
      (⟨hbv, false, false⟩, [OutFrame.disconnectedF, OutFrame.disconnectedF]) := by
    simp [heartbeat_timeout_run, hb_tick, htimeout, disconnect_ssh, stopping]
  rw [h]
  refine ⟨rfl, rfl, rfl, ?_⟩
  intro d
  simp [handle_input, send_error]

/-- Witness for C3 amended at a concrete timed-out session. -/
theorem c3_heartbeat_timeout_amended_witness :
    (heartbeat_timeout_run 11 ⟨0, true, true⟩).2.count OutFrame.disconnectedF = 2 ∧
      (heartbeat_timeout_run 11 ⟨0, true, true⟩).1.connected = false ∧
      handle_input (heartbeat_timeout_run 11 ⟨0, true, true⟩).1 "ls" =
        ((heartbeat_timeout_run 11 ⟨0, true, true⟩).1,
          [OutFrame.errorF "SSH连接未建立"], []) :=
  ⟨(c3_heartbeat_timeout_amended 11 ⟨0, true, true⟩ (by decide)).1,
    (c3_heartbeat_timeout_amended 11 ⟨0, true, true⟩ (by decide)).2.1,
    (c3_heartbeat_timeout_amended 11 ⟨0, true, true⟩ (by decide)).2.2.2 "ls"⟩

/-- C4 (code bug): on a zero-byte read (EOF) the I/O loop does terminate
(first conjunct), the output queue closes, and the output-forwarding task of
`handle_connect` simply ends — after a successful connect whose channel
immediately reaches EOF, the only frame delivered to the client is
`connected`: no `disconnected` frame is emitted on this path, and the actor
still has `connected` true, contradicting the claimed notification. -/
theorem c4_eof_terminates_loop_but_no_disconnected_frame :
    ((runLoop 1 ⟨[], [], [ReadResult.ok []], []⟩ ⟨none⟩).2 = .terminated ∧
      Event.eofSeen ∈ (runLoop 1 ⟨[], [], [ReadResult.ok []], []⟩ ⟨none⟩).1) ∧
      (connectAttempt ⟨0, false, false⟩ ⟨"h", 22, "u", "p"⟩ none none
        ⟨.ok, .ok, .ok, []⟩).2 = [OutFrame.connectedF "h" 22 "u"] ∧
      OutFrame.disconnectedF ∉
        (connectAttempt ⟨0, false, false⟩ ⟨"h", 22, "u", "p"⟩ none none
          ⟨.ok, .ok, .ok, []⟩).2 ∧
      (connectAttempt ⟨0, false, false⟩ ⟨"h", 22, "u", "p"⟩ none none
        ⟨.ok, .ok, .ok, []⟩).1.connected = true := by
  exact ⟨⟨rfl, by decide⟩, rfl, by decide, rfl⟩

/-- C6 counterexample: while a session is Connecting — its first `connect`
was accepted from Idle (shown by the equation: no frame, one spawned task)
and the async task has not yet delivered `SetSshClient`, so `connected` is
still false — a second identical `connect` call evaluates the same way: it is
NOT rejected, emits no error frame, and spawns a second connect task, because
`handle_connect` only guards on `self.connected`. -/
theorem c6_second_connect_while_connecting_counterexample :
    handle_connect ⟨0, false, false⟩ ⟨"h", 22, "u", "p"⟩ none none =
      (⟨0, false, false⟩, [], [.spawnConnect ⟨"h", 22, "u", "p"⟩ none none]) ∧
      (handle_connect ⟨0, false, false⟩ ⟨"h", 22, "u", "p"⟩ none none).2.1.all
        (fun f => !(f matches OutFrame.errorF _)) = true := by
  exact ⟨rfl, rfl⟩

/-- C6 amended: only while Connected (the `connected` flag is true) is a
second `connect` rejected with an error frame and no side effect on the
session; while Connecting (the flag still false because `SetSshClient` has
not yet been delivered) a second `connect` is accepted and spawns another
attempt. -/
theorem c6_second_connect_amended (hbv : Nat) (sc : Bool)
    (credentials : SshCredentials) (cw rh : Option Nat) :
    handle_connect ⟨hbv, sc, true⟩ credentials cw rh =
      (⟨hbv, sc, true⟩, [OutFrame.errorF "已有活跃的SSH连接，请先断开"], []) ∧
      handle_connect ⟨hbv, sc, false⟩ credentials cw rh =
        (⟨hbv, sc, false⟩, [], [.spawnConnect credentials cw rh]) := by
  constructor <;> simp [handle_connect, send_error]

/-- C7 counterexample: the claim quantifies over every inbound text frame
that does not parse as a control message, but the empty text frame — which
parses as no control shape — is ignored rather than forwarded: on a connected
session it produces no effect and no frame, whereas forwarding it as raw
input would produce a `Write` effect (second equation). -/
theorem c7_empty_text_not_forwarded_counterexample :
    handle_text_message (fun _ => none) ⟨0, true, true⟩ "" =
      (⟨0, true, true⟩, [], []) ∧
      handle_input ⟨0, true, true⟩ "" = (⟨0, true, true⟩, [], [Effect.ptyWrite ""]) := by
  exact ⟨rfl, rfl⟩

/-- C7 amended: every NON-EMPTY inbound text frame that does not parse as a
control message is forwarded verbatim to the raw-input handler — a `Write`
effect when connected with a client bound, an error frame when not connected
— while empty text frames are ignored; and every binary frame is decoded to
text (lossy UTF-8, abstracted as `decode`) and then handled identically to a
text frame. -/
theorem c7_raw_input_fallback_amended :
    (∀ (parse : String → Option ClientMessage) (st : WsSshPtySession) (text : String),
      text.isEmpty = false →
      (starts_with_json text = true → parse text.trim = none) →
      handle_text_message parse st text = handle_input st text) ∧
    (∀ (hbv : Nat) (text : String), handle_input ⟨hbv, true, true⟩ text =
      (⟨hbv, true, true⟩, [], [Effect.ptyWrite text])) ∧
    (∀ (hbv : Nat) (sc : Bool) (text : String), handle_input ⟨hbv, sc, false⟩ text =
      (⟨hbv, sc, false⟩, [OutFrame.errorF "SSH连接未建立"], [])) ∧
    (∀ (parse : String → Option ClientMessage) (decode : List Nat → String)
        (now : Nat) (st : WsSshPtySession) (bs : List Nat),
      stream_handle parse decode now st (.binary bs) =
        stream_handle parse decode now st (.text (decode bs))) := by
  refine ⟨?_, ?_, ?_, ?_⟩
  · intro parse st text hne hp
    by_cases hj : starts_with_json text
    · simp [handle_text_message, hne, hj, hp hj]
    · simp [handle_text_message, hne, hj]
  · intro hbv text
    simp [handle_input]
  · intro hbv sc text
    simp [handle_input, send_error]
  · intro parse decode now st bs
    rfl

/-- Witness for C7 amended: a concrete non-JSON text frame is forwarded. -/
theorem c7_raw_input_fallback_amended_witness :
    handle_text_message (fun _ => none) ⟨0, true, true⟩ "ls -la" =
      handle_input ⟨0, true, true⟩ "ls -la" :=
  c7_raw_input_fallback_amended.1 (fun _ => none) ⟨0, true, true⟩ "ls -la" (by decide)
    (fun _ => rfl)

/-- C10: an empty inbound text frame is ignored entirely: the stream handler
changes no session state other than the heartbeat timestamp, emits no frame
and no effect, and `handle_text_message` returns before the JSON-or-raw-input
dispatch with the state untouched. -/
theorem c10_empty_text_ignored (parse : String → Option ClientMessage)
    (decode : List Nat → String) (now hbv : Nat) (sc cn : Bool) :
    stream_handle parse decode now ⟨hbv, sc, cn⟩ (.text "") =
      (⟨now, sc, cn⟩, [], [], false) ∧
      handle_text_message parse ⟨hbv, sc, cn⟩ "" = (⟨hbv, sc, cn⟩, [], []) := by
  exact ⟨rfl, rfl⟩

/-- Witness for C1: the invariant instantiated at a concrete interrupted run
(one staged payload, two partial writes, fuel exhausted mid-flush). -/
theorem c1_pty_write_exact_flush_witness :
    FlushInv 3 ⟨[.ok (.write [1, 2, 3, 4, 5])], [.ok 2, .ok 2], [], []⟩ ⟨none⟩ :=
  c1_pty_write_exact_flush 3 ⟨[.ok (.write [1, 2, 3, 4, 5])], [.ok 2, .ok 2], [], []⟩ ⟨none⟩

/-- Witness for C8 at concrete runs: a queue holding resize, close, write in
that order has close as the last consumed command; a run whose next command is
close terminates; a doubled `close()` is a no-op returning ok. -/
theorem c8_close_terminal_idempotent_witness :
    closeIsLast (cmdEvents (runLoop 3
        ⟨[.ok (.resize 80 24), .ok .close, .ok (.write [1])], [], [], []⟩ ⟨none⟩).1) = true ∧
      (runLoop 1 ⟨[.ok .close], [], [], []⟩ ⟨none⟩).2 = .terminated ∧
      Ssh2PtyClient.close (Ssh2PtyClient.close ⟨true, true⟩).1 = (⟨false, false⟩, [], true) :=
  ⟨c8_close_terminal_idempotent.1 3
      ⟨[.ok (.resize 80 24), .ok .close, .ok (.write [1])], [], [], []⟩ ⟨none⟩,
    (c8_close_terminal_idempotent.2.1 [] [] [] [] 0).1,
    (c8_close_terminal_idempotent.2.2 ⟨true, true⟩).1⟩

end Rsts
